import Mathlib

/-
Verification development for the Telegram conversion bot (src/telegram/bot.js,
src/main.js, src/db/database.js).  The JavaScript handlers are shallowly
embedded as pure Lean functions: the sqlite orders table becomes a list of
Order records, the in-memory rate-limit map becomes a function from chat id
to an optional entry, exchange calls become explicit Except-valued
parameters (an exception carries the upstream message), and outbound
messages become lists of strings.
-/

namespace BianBot

/-! ### MarkdownV2 escaping (bot.js lines 15-17)

`text.replace(/([_*\[\]()~`>#+\-=|{}.!\\])/g, '\\$1')` prefixes every
occurrence of a character of the reserved set with one backslash.  The
reserved characters are listed by their code points: `_ * [ ] ( ) ~`,
backtick, `> # + - = | .` , the two curly braces, `!` and the backslash. -/

def reservedCodes : List Nat :=
  [95, 42, 91, 93, 40, 41, 126, 96, 62, 35, 43, 45, 61, 124, 123, 125, 46, 33, 92]

def isReservedChar (c : Char) : Bool := reservedCodes.contains c.toNat

def escList : List Char → List Char
  | [] => []
  | c :: cs => if isReservedChar c then '\\' :: c :: escList cs else c :: escList cs

def escapeMarkdownV2 (s : String) : String := ⟨escList s.data⟩

/-! ### Generic string scanning

JavaScript regexes used by the handlers are modelled by direct scanners on
the character list.  A pattern without a leading anchor is tried at every
suffix of the text, leftmost first, exactly as `RegExp.exec` does. -/

def startsWithChars : List Char → List Char → Bool
  | [], _ => true
  | _ :: _, [] => false
  | p :: ps, c :: cs => p == c && startsWithChars ps cs

/-- The text contains the literal pattern somewhere (an unanchored regex of
plain characters, e.g. bot.js line 300 `/\/tradehistory/`). -/
def occursIn (pat s : String) : Bool := s.data.tails.any (startsWithChars pat.data)

def endsWithChars (pat s : List Char) : Bool := startsWithChars pat.reverse s.reverse

/-- JS `String.prototype.split` on a one-character separator. -/
def splitOnChar (sep : Char) : List Char → List (List Char)
  | [] => [[]]
  | c :: cs =>
      match splitOnChar sep cs with
      | [] => [[]]
      | h :: t => if c == sep then [] :: h :: t else (c :: h) :: t

/-- JS `String.prototype.trim`. -/
def jsTrim (s : String) : String :=
  ⟨((s.data.dropWhile Char.isWhitespace).reverse.dropWhile Char.isWhitespace).reverse⟩

/-- JS `String.prototype.toUpperCase` (the asset symbols in use are ASCII). -/
def jsToUpper (s : String) : String := ⟨s.data.map Char.toUpper⟩

/-- JS `String.prototype.includes` on a one-character argument. -/
def hasChar (s : String) (c : Char) : Bool := s.data.any (· == c)

/-- JS `\w` is `[A-Za-z0-9_]`. -/
def isWordChar (c : Char) : Bool := c.isAlphanum || c == '_'

def digitsVal (l : List Char) : Nat := l.foldl (fun a c => 10 * a + (c.toNat - 48)) 0

/-- Scan one `\d+(\.\d+)?` token (greedy, the optional fraction taken only
when a dot with at least one digit follows) and return its parsed numeric
value (`parseFloat` of such a token is exact for the magnitudes in use)
together with the unconsumed rest. -/
def scanNumToken (cs : List Char) : Option (ℚ × List Char) :=
  let p := cs.span Char.isDigit
  if p.1.isEmpty then none else
    match p.2 with
    | '.' :: r2 =>
        let q := r2.span Char.isDigit
        if q.1.isEmpty then some (mkRat (digitsVal p.1) 1, p.2)
        else some (mkRat (digitsVal (p.1 ++ q.1)) (10 ^ q.1.length), q.2)
    | _ => some (mkRat (digitsVal p.1) 1, p.2)

/-! ### Command pattern matchers -/

/-- Try `/\/convert (\w+) (\w+) (\d+(\.\d+)?)/` at one position: the literal
`"/convert "`, a nonempty word, a space, a nonempty word, a space, a numeric
token; the rest of the text is unconstrained (bot.js line 152). -/
def convertAt (cs : List Char) : Option (String × String × ℚ) :=
  if startsWithChars "/convert ".data cs then
    let r := cs.drop 9
    let w1 := r.span isWordChar
    if w1.1.isEmpty then none else
    match w1.2 with
    | ' ' :: r2 =>
      let w2 := r2.span isWordChar
      if w2.1.isEmpty then none else
      match w2.2 with
      | ' ' :: r4 =>
        match scanNumToken r4 with
        | some (q, _) => some (⟨w1.1⟩, ⟨w2.1⟩, q)
        | none => none
      | _ => none
    | _ => none
  else none

def matchConvert (text : String) : Option (String × String × ℚ) :=
  text.data.tails.findSome? convertAt

/-- Try `/\/placeorder (\w+) (\w+) (\d+(\.\d+)?) (\d+(\.\d+)?)$/` at one
position; the end anchor requires the second numeric token to end the text
(bot.js line 331). -/
def placeOrderAt (cs : List Char) : Option (String × String × ℚ × ℚ) :=
  if startsWithChars "/placeorder ".data cs then
    let r := cs.drop 12
    let w1 := r.span isWordChar
    if w1.1.isEmpty then none else
    match w1.2 with
    | ' ' :: r2 =>
      let w2 := r2.span isWordChar
      if w2.1.isEmpty then none else
      match w2.2 with
      | ' ' :: r4 =>
        match scanNumToken r4 with
        | some (a, ' ' :: r5) =>
          match scanNumToken r5 with
          | some (p, []) => some (⟨w1.1⟩, ⟨w2.1⟩, a, p)
          | _ => none
        | _ => none
      | _ => none
    | _ => none
  else none

def matchPlaceOrder (text : String) : Option (String × String × ℚ × ℚ) :=
  text.data.tails.findSome? placeOrderAt

/-- `/<cmd> (\w+)/`-style patterns (`/status`, `/cancelorder`): the literal
including its trailing space followed by a nonempty word. -/
def matchWordArg (lit : String) (text : String) : Option String :=
  text.data.tails.findSome? fun cs =>
    if startsWithChars lit.data cs then
      let w := (cs.drop lit.length).span isWordChar
      if w.1.isEmpty then none else some ⟨w.1⟩
    else none

/-- `/<cmd> (.+)/`-style patterns (`/assetinfo`, `/addassets`,
`/removeassets`, batch `/exchangeinfo`): the literal followed by at least one
character that is not a line terminator; the capture runs to the end of the
line. -/
def matchRestArg (lit : String) (text : String) : Option String :=
  text.data.tails.findSome? fun cs =>
    if startsWithChars lit.data cs then
      let cap := (cs.drop lit.length).takeWhile (fun c => !(c == '\n' || c == '\r'))
      if cap.isEmpty then none else some ⟨cap⟩
    else none

/-! ### Data model -/

/-- One entry of the supported-pairs registry (`binance.supportedAssets`). -/
structure Pair where
  fromAsset : String
  toAsset : String
deriving DecidableEq

/-- One row of the sqlite `orders` table (src/db/database.js).  `amount` is
`none` when the bound JS number is NaN; `timestamp` is the insertion time
supplied by the DEFAULT clause. -/
structure Order where
  orderId : String
  chatId : Int
  fromAsset : String
  toAsset : String
  amount : Option ℚ
  status : String
  error : Option String
  timestamp : Int
deriving DecidableEq

/-- Duplicate test between two registry entries, in either direction. -/
def samePairB (p q : Pair) : Bool :=
  (p.fromAsset == q.fromAsset && p.toAsset == q.toAsset) ||
  (p.fromAsset == q.toAsset && p.toAsset == q.fromAsset)

/-- The supported-pair check, written identically in the `/convert` handler
(bot.js lines 181-184), the `/placeorder` handler (lines 346-349) and the
admin mutation handlers: an entry matches in either stored direction. -/
def isSupported (regs : List Pair) (f t : String) : Bool :=
  regs.any fun p =>
    (p.fromAsset == f && p.toAsset == t) || (p.fromAsset == t && p.toAsset == f)

/-- Boolean set-semantics invariant of the registry: no two entries are equal
or direction-reversed duplicates of each other. -/
def noDupPairs : List Pair → Bool
  | [] => true
  | p :: rest => !(rest.any (samePairB p)) && noDupPairs rest

/-! ### JS helpers -/

/-- `x || 0` on a JS number (NaN and 0 are falsy). -/
def jsOrZero (a : Option ℚ) : ℚ := match a with | none => 0 | some x => x

/-- `s || "Unknown"` on a JS string (only the empty string is falsy). -/
def jsOrUnknown (s : String) : String := if s == "" then "Unknown" else s

/-- Decimal digits of `num / den` (with `num < den`), as produced by JS
number-to-string conversion for short terminating decimals; the fuel bounds
the expansion and is never exhausted for the values in use. -/
def fracDigits : Nat → Nat → Nat → String
  | 0, _, _ => ""
  | _, 0, _ => ""
  | fuel + 1, num, den =>
      toString (num * 10 / den) ++ fracDigits fuel (num * 10 % den) den

/-- JS template-literal rendering of a number with a short decimal value. -/
def jsNumToString (q : ℚ) : String :=
  let sign := if q.num < 0 then "-" else ""
  let n := q.num.natAbs
  let fr := n % q.den
  sign ++ toString (n / q.den) ++ (if fr == 0 then "" else "." ++ fracDigits 20 fr q.den)

/-- Rendering of a possibly-NaN number. -/
def jsNumOptToString (a : Option ℚ) : String :=
  match a with | none => "NaN" | some q => jsNumToString q

/-- Text of `sendPersistentMenu` (bot.js line 63). -/
def menuText : String := "请选择一个操作:"

/-! ### Rate limiter (src/main.js lines 30-33, bot.js lines 158-178) -/

def RATE_LIMIT_WINDOW_MS : Int := 60000
def RATE_LIMIT_MAX_REQUESTS : Nat := 10

/-- One `userRateLimits[chatId]` entry. -/
structure RateEntry where
  count : Nat
  lastReset : Int
  lang : String
deriving DecidableEq

/-- The mutation the `/convert` handler applies to the requesting chat's
entry: create with count 1 when absent, reset to 1 when the window elapsed
strictly, otherwise increment (bot.js lines 159-169). -/
def rateLimitStep (e : Option RateEntry) (now window : Int) : RateEntry :=
  match e with
  | none => ⟨1, now, "zh"⟩
  | some r =>
      if now - r.lastReset > window then ⟨1, now, r.lang⟩
      else ⟨r.count + 1, r.lastReset, r.lang⟩

/-! ### /convert handler (bot.js lines 152-208) -/

inductive ConvertOutcome
  | noMatch
  | rateLimited
  | unsupported
  | prompt (callback : String)
deriving DecidableEq

structure ConvertResult where
  limits : Int → Option RateEntry
  outcome : ConvertOutcome

/-- The `/convert` command handler: regex match, rate-limit step, rejection
when the new count exceeds the maximum, supported-pair check, and otherwise
the inline confirm prompt whose callback data is
`confirm_convert_<FROM>_<TO>_<amount>`.  There is no positivity check on the
amount. -/
def convertHandler (regs : List Pair) (limits : Int → Option RateEntry)
    (chatId : Int) (now window : Int) (maxReq : Nat) (text : String) : ConvertResult :=
  match matchConvert text with
  | none => ⟨limits, .noMatch⟩
  | some (w1, w2, amt) =>
    let f := jsToUpper w1
    let t := jsToUpper w2
    let e := rateLimitStep (limits chatId) now window
    let limits2 : Int → Option RateEntry := fun c => if c == chatId then some e else limits c
    if e.count > maxReq then ⟨limits2, .rateLimited⟩
    else if !(isSupported regs f t) then ⟨limits2, .unsupported⟩
    else ⟨limits2, .prompt ("confirm_convert_" ++ f ++ "_" ++ t ++ "_" ++ jsNumToString amt)⟩

/-! ### Instant Conversion protocol (bot.js lines 840-886)

The two exchange calls are passed in as `Except`-valued parameters: `.error
e` models a thrown exchange error with message `e`, `.ok none` a response
without the required id field, `.ok (some id)` a response carrying the id.
The i18n lookup `t('convert_failed', {errorMessage})` is passed in as the
abstract function `tcf` (the locale files are outside the examined source).
`freshId` is the random hex generated by `crypto.randomBytes(16)` on the
failure path. -/

structure ConvertEffects where
  db : List Order
  userMsgs : List String
  adminMsgs : List String

/-- True exactly when both the quote and the accept step returned their id. -/
def convertSucceeds (q a : Except String (Option String)) : Bool :=
  match q, a with
  | .ok (some _), .ok (some _) => true
  | _, _ => false

/-- The message of the error caught by `instantConvert`'s catch block on a
non-success path. -/
def instantErrText (tcf : String → String) (q a : Except String (Option String)) : String :=
  match q with
  | .error e => e
  | .ok none => tcf "未能获取闪兑报价"
  | .ok (some _) =>
      match a with
      | .error e => e
      | .ok none => tcf "闪兑交易执行失败"
      | .ok (some _) => ""

def instantConvert (chatId : Int) (f t : String) (amount : Option ℚ)
    (tcf : String → String) (quoteRes acceptRes : Except String (Option String))
    (freshId : String) (now : Int) (db : List Order) : ConvertEffects :=
  match quoteRes, acceptRes with
  | .ok (some _), .ok (some oid) =>
      { db := db ++ [⟨oid, chatId, f, t, amount, "completed", none, now⟩]
        userMsgs := [escapeMarkdownV2 ("✅ *转换成功！*\n\n*从:* " ++ f ++ "\n*到:* " ++ t ++
                       "\n*数量:* " ++ jsNumOptToString amount ++ "\n*订单 ID:* " ++ oid), menuText]
        adminMsgs := [] }
  | _, _ =>
      let emsg := instantErrText tcf quoteRes acceptRes
      { db := db ++ [⟨freshId, chatId, jsOrUnknown f, jsOrUnknown t, some (jsOrZero amount),
                      "failed", some (escapeMarkdownV2 emsg), now⟩]
        userMsgs := [escapeMarkdownV2 ("❌ *转换失败:*\n" ++ escapeMarkdownV2 emsg), menuText]
        adminMsgs := ["闪兑失败: " ++ emsg] }

/-! ### /placeorder handler (bot.js lines 331-391) -/

structure PlaceResult where
  db : List Order
  exchangeCalled : Bool
  userMsgs : List String
  adminMsgs : List String

/-- The `/placeorder` command handler.  `orderRes` models
`binance.placeConvertLimitOrder` exactly as in `instantConvert`; it is
consulted only after validation and the supported-pair check succeed, which
the `exchangeCalled` flag records. -/
def placeOrderHandler (regs : List Pair) (db : List Order) (chatId : Int)
    (orderRes : Except String (Option String)) (freshId : String) (now : Int)
    (text : String) : PlaceResult :=
  match matchPlaceOrder text with
  | none => ⟨db, false, [], []⟩
  | some (w1, w2, amt, price) =>
    let f := jsToUpper w1
    let t := jsToUpper w2
    if amt ≤ 0 ∨ price ≤ 0 then
      ⟨db, false, ["❌ *转换失败:*\n金额和价格必须为正数。"], []⟩
    else if !(isSupported regs f t) then
      ⟨db, false, [escapeMarkdownV2 ("⚠️ *货币对不支持:*\n" ++ f ++ " ↔️ " ++ t ++ "。")], []⟩
    else
      match orderRes with
      | .ok (some oid) =>
          ⟨db ++ [⟨oid, chatId, f, t, some amt, "pending", none, now⟩], true,
           [escapeMarkdownV2 ("✅ *限价单已下达！*\n\n*从:* " ++ f ++ "\n*到:* " ++ t ++
              "\n*数量:* " ++ jsNumToString amt ++ "\n*价格:* " ++ jsNumToString price ++
              "\n*订单 ID:* " ++ oid), menuText], []⟩
      | .ok none =>
          ⟨db ++ [⟨freshId, chatId, jsOrUnknown f, jsOrUnknown t, some (jsOrZero (some amt)),
                   "failed", some (escapeMarkdownV2 "限价单创建失败。"), now⟩], true,
           [escapeMarkdownV2 ("❌ *转换失败:*\n" ++ escapeMarkdownV2 "限价单创建失败。"), menuText],
           ["限价单创建失败: 限价单创建失败。"]⟩
      | .error e =>
          ⟨db ++ [⟨freshId, chatId, jsOrUnknown f, jsOrUnknown t, some (jsOrZero (some amt)),
                   "failed", some (escapeMarkdownV2 e), now⟩], true,
           [escapeMarkdownV2 ("❌ *转换失败:*\n" ++ escapeMarkdownV2 e), menuText],
           ["限价单创建失败: " ++ e]⟩

/-! ### /cancelorder handler (bot.js lines 396-423) -/

structure CancelEffects where
  db : List Order
  userMsgs : List String
  adminMsgs : List String

/-- The row update performed by
`UPDATE orders SET status = 'canceled' WHERE orderId = ?`. -/
def cancelUpd (oid : String) (o : Order) : Order :=
  if o.orderId == oid then
    ⟨o.orderId, o.chatId, o.fromAsset, o.toAsset, o.amount, "canceled", o.error, o.timestamp⟩
  else o

def cancelOrderHandler (db : List Order) (orderId : String)
    (cancelRes : Except String (Option String)) : CancelEffects :=
  match cancelRes with
  | .ok (some _) =>
      { db := db.map (cancelUpd orderId)
        userMsgs := [escapeMarkdownV2 ("✅ *限价单已取消！*\n\n*订单 ID:* " ++ orderId), menuText]
        adminMsgs := [] }
  | .ok none =>
      { db := db
        userMsgs := [escapeMarkdownV2 ("❌ *转换失败:*\n" ++ escapeMarkdownV2 "限价单取消失败。")]
        adminMsgs := ["限价单取消失败: 限价单取消失败。"] }
  | .error e =>
      { db := db
        userMsgs := [escapeMarkdownV2 ("❌ *转换失败:*\n" ++ escapeMarkdownV2 e)]
        adminMsgs := ["限价单取消失败: " ++ e] }

/-! ### Admin registry mutation (bot.js lines 542-669)

Both handlers receive `match[1]` as `arg`; `adminChatId` is the
`ADMIN_CHAT_ID` string from the environment; `writeRes` models
`writeFileAsync` on the registry file.  `orders` is the order store, which
neither handler touches.  `file` is the pair list persisted in
`SUPPORTED_ASSETS_FILE`. -/

structure AdminEffects where
  registry : List Pair
  file : List Pair
  orders : List Order
  userMsgs : List String
  adminMsgs : List String
deriving DecidableEq

def isAdmin (chatId : Int) (adminChatId : String) : Bool :=
  toString chatId == adminChatId

def permissionDeniedText : String := "⚠️ 您没有权限执行此操作。"

def invalidPairFormatText : String := "⚠️ 无效的资产兑换对格式。请使用 `fromAsset:toAsset` 的格式。"

/-- `assetsStr.split(',').map(p => p.trim()).filter(p => p.includes(':'))`. -/
def tokenizePairs (s : String) : List String :=
  ((splitOnChar ',' s.data).map fun l => jsTrim ⟨l⟩).filter fun p => hasChar p ':'

/-- `pair.split(':').map(a => a.toUpperCase())` destructured to its first two
components, rejected when either is the empty string. -/
def tokenToPair (tok : String) : Option Pair :=
  match (splitOnChar ':' tok.data).map fun l => jsToUpper ⟨l⟩ with
  | f :: t :: _ => if f == "" || t == "" then none else some ⟨f, t⟩
  | _ => none

/-- `${from} ↔️ ${to}`. -/
def pairLabel (p : Pair) : String := p.fromAsset ++ " ↔️ " ++ p.toAsset

/-- The pairs the `/addassets` loop pushes onto `newPairs`: every valid token
of the command whose pair is not yet in the registry in either direction.
The membership test always runs against the registry as it was before the
command (the `concat` happens only after the loop). -/
def addAssetsNewPairs (regs : List Pair) (toks : List String) : List Pair :=
  (toks.filterMap tokenToPair).filter fun p => !(isSupported regs p.fromAsset p.toAsset)

def addAssetsExistingPairs (regs : List Pair) (toks : List String) : List Pair :=
  (toks.filterMap tokenToPair).filter fun p => isSupported regs p.fromAsset p.toAsset

def addAssetsHandler (regs file : List Pair) (orders : List Order) (chatId : Int)
    (adminChatId : String) (writeRes : Except String Unit) (arg : String) : AdminEffects :=
  if !(isAdmin chatId adminChatId) then
    ⟨regs, file, orders, [escapeMarkdownV2 permissionDeniedText], []⟩
  else
    let toks := tokenizePairs (jsTrim arg)
    if toks.isEmpty then ⟨regs, file, orders, [invalidPairFormatText], []⟩
    else
      let news := addAssetsNewPairs regs toks
      let olds := addAssetsExistingPairs regs toks
      let regs2 := regs ++ news
      match writeRes with
      | .ok _ =>
          let resp :=
            (if news.isEmpty then "" else
              "✅ 成功添加以下资产兑换对:\n" ++ String.intercalate "\n" (news.map pairLabel) ++ "\n\n") ++
            (if olds.isEmpty then "" else
              "⚠️ 以下资产兑换对已存在，未重复添加:\n" ++ String.intercalate "\n" (olds.map pairLabel))
          ⟨regs2, regs2, orders, [resp, menuText], []⟩
      | .error e =>
          ⟨regs2, file, orders,
           [escapeMarkdownV2 ("❌ *转换失败:*\n" ++ escapeMarkdownV2 e)],
           ["批量添加资产兑换对失败: " ++ e]⟩

/-- `findIndex` in either direction followed by `splice(index, 1)`: remove
the first matching entry and return it with the remaining list. -/
def removeFirst (regs : List Pair) (f t : String) : Option (Pair × List Pair) :=
  match regs with
  | [] => none
  | p :: rest =>
      if (p.fromAsset == f && p.toAsset == t) || (p.fromAsset == t && p.toAsset == f) then
        some (p, rest)
      else
        match removeFirst rest f t with
        | some (r, rem) => some (r, p :: rem)
        | none => none

/-- The `/removeassets` forEach, which splices the shared array as it goes:
returns the final registry, the labels of the removed entries and the labels
of the tokens that matched nothing. -/
def removeLoop : List Pair → List String → List Pair × List String × List String
  | regs, [] => (regs, [], [])
  | regs, tok :: rest =>
      match tokenToPair tok with
      | none => removeLoop regs rest
      | some pr =>
          match removeFirst regs pr.fromAsset pr.toAsset with
          | some (r, regs2) =>
              let acc := removeLoop regs2 rest
              (acc.1, pairLabel r :: acc.2.1, acc.2.2)
          | none =>
              let acc := removeLoop regs rest
              (acc.1, acc.2.1, pairLabel pr :: acc.2.2)

def removeAssetsHandler (regs file : List Pair) (orders : List Order) (chatId : Int)
    (adminChatId : String) (writeRes : Except String Unit) (arg : String) : AdminEffects :=
  if !(isAdmin chatId adminChatId) then
    ⟨regs, file, orders, [permissionDeniedText], []⟩
  else
    let toks := tokenizePairs (jsTrim arg)
    if toks.isEmpty then ⟨regs, file, orders, [invalidPairFormatText], []⟩
    else
      let acc := removeLoop regs toks
      match writeRes with
      | .ok _ =>
          let resp :=
            (if acc.2.1.isEmpty then "" else
              "✅ 成功移除以下资产兑换对:\n" ++ String.intercalate "\n" acc.2.1 ++ "\n\n") ++
            (if acc.2.2.isEmpty then "" else
              "⚠️ 以下资产兑换对不存在，无法移除:\n" ++ String.intercalate "\n" acc.2.2)
          ⟨acc.1, acc.1, orders, [escapeMarkdownV2 resp, menuText], []⟩
      | .error e =>
          ⟨acc.1, file, orders,
           [escapeMarkdownV2 ("❌ *转换失败:*\n" ++ escapeMarkdownV2 e)],
           ["批量移除资产兑换对失败: " ++ e]⟩

/-! ### /status reply construction (bot.js lines 280-285) -/

/-- The part of `statusMessage` built before the error suffix. -/
def statusBaseMsg (o : Order) : String :=
  "*订单 ID:* " ++ o.orderId ++ "\n*状态:* " ++ o.status

/-- `statusMessage` after the conditional `+=` that appends the escaped
stored error when the status is `failed`. -/
def statusComposedMsg (o : Order) : String :=
  if o.status == "failed" then
    statusBaseMsg o ++ ("\n*错误:* " ++ escapeMarkdownV2 (o.error.getD ""))
  else statusBaseMsg o

/-- The text actually passed to `bot.sendMessage`: the composed message is
escaped once more. -/
def statusSentMsg (o : Order) : String := escapeMarkdownV2 (statusComposedMsg o)

/-- Modelled from the spec: the outbound `/status` text under the claimed
discipline that the escaping pass is applied exactly once per outbound
message, i.e. once to the composed message with the stored dynamic error
text inserted raw.  Used only as the comparison point for the refinement
claim about escaping. -/
def statusSentMsgSpecOnce (o : Order) : String :=
  escapeMarkdownV2 (if o.status == "failed" then
    statusBaseMsg o ++ ("\n*错误:* " ++ o.error.getD "") else statusBaseMsg o)

/-! ### Dispatcher registrations (bot.js, `initialize`)

Each `bot.onText` listener fires whenever its regex matches the inbound
message text, independently of the others; each `bot.on('message')` listener
fires on every inbound message and is recorded here by the predicate
"this listener sends at least one reply to this text".  The
`callback_query` listener does not react to messages and is omitted.  The
list follows the registration order in the source; note that the
`/tradehistory` listener is registered at lines 300 and 511 and the
`/assetinfo` listener at lines 458 and 743. -/

inductive HKind
  | start | menuMsg | help | convert | status | tradeHistory | placeOrder
  | cancelOrder | exchangeInfoSingle | assetInfo | addAssets | removeAssets
  | exchangeInfoBatch | unknownMsg
deriving DecidableEq

def menuLabels : List String := ["立即兑换", "查看状态", "个人信息", "帮助"]

/-- The first `message` listener (lines 88-132) returns early on commands
and otherwise replies in every branch of its switch. -/
def menuMsgReplies (t : String) : Bool := !(startsWithChars "/".data t.data)

/-- The second `message` listener (lines 796-806) replies exactly to
non-command texts outside the fixed menu label set. -/
def unknownMsgReplies (t : String) : Bool :=
  !(startsWithChars "/".data t.data) && !(menuLabels.contains t)

def registrations : List (HKind × (String → Bool)) :=
  [ (.start, fun t => occursIn "/start" t),
    (.menuMsg, menuMsgReplies),
    (.help, fun t => occursIn "/help" t),
    (.convert, fun t => (matchConvert t).isSome),
    (.status, fun t => (matchWordArg "/status " t).isSome),
    (.tradeHistory, fun t => occursIn "/tradehistory" t),
    (.placeOrder, fun t => (matchPlaceOrder t).isSome),
    (.cancelOrder, fun t => (matchWordArg "/cancelorder " t).isSome),
    (.exchangeInfoSingle, fun t => endsWithChars "/exchangeinfo".data t.data),
    (.assetInfo, fun t => (matchRestArg "/assetinfo " t).isSome),
    (.tradeHistory, fun t => occursIn "/tradehistory" t),
    (.addAssets, fun t => (matchRestArg "/addassets " t).isSome),
    (.removeAssets, fun t => (matchRestArg "/removeassets " t).isSome),
    (.exchangeInfoBatch, fun t => (matchRestArg "/exchangeinfo " t).isSome),
    (.assetInfo, fun t => (matchRestArg "/assetinfo " t).isSome),
    (.unknownMsg, unknownMsgReplies) ]

/-- The registered listeners that send a reply on the given inbound text, in
registration order. -/
def respondersFor (t : String) : List HKind :=
  (registrations.filter fun r => r.2 t).map fun r => r.1

/-- A concrete run of the `/convert` handler for chat 7 with the process
configuration of src/main.js (window 60000 ms, maximum 10), the registry
holding the single pair A-B, and the command `/convert A B 1` issued once at
each time in the list, starting from an empty rate-limit map. -/
def convertSim (times : List Int) : ConvertResult :=
  times.foldl
    (fun acc now =>
      convertHandler [⟨"A", "B"⟩] acc.limits 7 now
        RATE_LIMIT_WINDOW_MS RATE_LIMIT_MAX_REQUESTS "/convert A B 1")
    ⟨fun _ => none, .noMatch⟩

/-! ### Helper lemmas -/

lemma strBeq_comm (a b : String) : (a == b) = (b == a) := by
  by_cases h : a = b
  · subst h; rfl
  · have h2 : ¬b = a := fun e => h e.symm
    simp [h, h2]

lemma escList_append (l1 l2 : List Char) :
    escList (l1 ++ l2) = escList l1 ++ escList l2 := by
  induction l1 with
  | nil => rfl
  | cons c cs ih =>
      simp only [List.cons_append, escList]
      by_cases h : isReservedChar c = true
      · simp [h, ih]
      · simp [Bool.not_eq_true] at h
        simp [h, ih]

lemma escape_append (a b : String) :
    escapeMarkdownV2 (a ++ b) = escapeMarkdownV2 a ++ escapeMarkdownV2 b := by
  show (⟨escList (a ++ b).data⟩ : String) = ⟨escList a.data ++ escList b.data⟩
  rw [String.data_append, escList_append]

lemma samePairB_symm (p q : Pair) : samePairB p q = samePairB q p := by
  simp only [samePairB]
  rw [strBeq_comm p.fromAsset q.fromAsset, strBeq_comm p.toAsset q.toAsset,
      strBeq_comm p.fromAsset q.toAsset, strBeq_comm p.toAsset q.fromAsset,
      Bool.and_comm (q.toAsset == p.fromAsset) (q.fromAsset == p.toAsset)]

/-- Rejection against the old registry is exactly the duplicate test: the
predicate inside `isSupported regs p.fromAsset p.toAsset` applied to an
entry `q` is `samePairB q p`. -/
lemma isSupported_eq_any_samePairB (regs : List Pair) (p : Pair) :
    isSupported regs p.fromAsset p.toAsset = regs.any (fun q => samePairB q p) := rfl

lemma noDupPairs_append (l1 l2 : List Pair)
    (h1 : noDupPairs l1 = true) (h2 : noDupPairs l2 = true)
    (hc : ∀ q ∈ l1, ∀ p ∈ l2, samePairB q p = false) :
    noDupPairs (l1 ++ l2) = true := by
  induction l1 with
  | nil => simpa using h2
  | cons a l ih =>
      simp only [noDupPairs, Bool.and_eq_true, Bool.not_eq_true'] at h1
      simp only [List.cons_append, noDupPairs, Bool.and_eq_true, Bool.not_eq_true']
      refine ⟨?_, ih h1.2 (fun q hq p hp => hc q (List.mem_cons_of_mem a hq) p hp)⟩
      show (l ++ l2).any (samePairB a) = false
      rw [List.any_append, h1.1]
      simp only [Bool.false_or]
      rw [List.any_eq_false]
      intro p hp
      simp [hc a (List.mem_cons_self a l) p hp]

/-! ### Claim theorems -/

/-- C9: for every registry contents and every pair of asset symbols A and B,
the supported-pair check used by the `/convert` and `/placeorder` handlers is
symmetric: `isSupported regs A B = isSupported regs B A`. -/
theorem isSupported_symm (regs : List Pair) (a b : String) :
    isSupported regs a b = isSupported regs b a := by
  induction regs with
  | nil => rfl
  | cons p l ih =>
      simp only [isSupported, List.any_cons] at *
      rw [ih, Bool.or_comm (p.fromAsset == a && p.toAsset == b)]

/-- C7: on a successful exchange cancel, the `/cancelorder` handler rewrites
exactly the rows whose orderId matches, changing only the status field to
`canceled`; on an exchange failure (a thrown error or a response without an
order id) the orders table is unchanged and the only effects are an error
reply and an admin notification. -/
theorem cancelorder_frame :
    (∀ (db : List Order) (oid x : String),
        (cancelOrderHandler db oid (.ok (some x))).db = db.map (cancelUpd oid) ∧
        (cancelOrderHandler db oid (.ok (some x))).adminMsgs = []) ∧
    (∀ (o : Order) (oid : String), o.orderId ≠ oid → cancelUpd oid o = o) ∧
    (∀ (o : Order) (oid : String), o.orderId = oid →
        (cancelUpd oid o).status = "canceled" ∧ (cancelUpd oid o).orderId = o.orderId ∧
        (cancelUpd oid o).chatId = o.chatId ∧ (cancelUpd oid o).fromAsset = o.fromAsset ∧
        (cancelUpd oid o).toAsset = o.toAsset ∧ (cancelUpd oid o).amount = o.amount ∧
        (cancelUpd oid o).error = o.error ∧ (cancelUpd oid o).timestamp = o.timestamp) ∧
    (∀ (db : List Order) (oid e : String),
        (cancelOrderHandler db oid (.error e)).db = db ∧
        (cancelOrderHandler db oid (.error e)).userMsgs ≠ [] ∧
        (cancelOrderHandler db oid (.error e)).adminMsgs ≠ []) ∧
    (∀ (db : List Order) (oid : String),
        (cancelOrderHandler db oid (.ok none)).db = db ∧
        (cancelOrderHandler db oid (.ok none)).userMsgs ≠ [] ∧
        (cancelOrderHandler db oid (.ok none)).adminMsgs ≠ []) := by
  refine ⟨fun db oid x => ⟨rfl, rfl⟩, ?_, ?_,
    fun db oid e => ⟨rfl, by simp [cancelOrderHandler], by simp [cancelOrderHandler]⟩,
    fun db oid => ⟨rfl, by simp [cancelOrderHandler], by simp [cancelOrderHandler]⟩⟩
  · intro o oid h
    simp [cancelUpd, h]
  · intro o oid h
    subst h
    simp [cancelUpd]

theorem cancelorder_frame_witness :
    ((Order.mk "a1" 9 "X" "Y" (some 2) "pending" none 5).orderId ≠ "b2" ∧
      cancelUpd "b2" (Order.mk "a1" 9 "X" "Y" (some 2) "pending" none 5) =
        Order.mk "a1" 9 "X" "Y" (some 2) "pending" none 5) ∧
    ((Order.mk "a1" 9 "X" "Y" (some 2) "pending" none 5).orderId = "a1" ∧
      (cancelUpd "a1" (Order.mk "a1" 9 "X" "Y" (some 2) "pending" none 5)).status = "canceled") :=
  ⟨⟨by decide, cancelorder_frame.2.1 _ "b2" (by decide)⟩,
   ⟨rfl, (cancelorder_frame.2.2.1 (Order.mk "a1" 9 "X" "Y" (some 2) "pending" none 5) "a1" rfl).1⟩⟩

/-- C8: a non-admin invocation of `/addassets` or `/removeassets` yields only
the permission-denied reply: the in-memory registry, the backing registry
file and the order store are returned unchanged and no admin notification is
sent. -/
theorem admin_guard_no_mutation :
    ∀ (regs file : List Pair) (orders : List Order) (chatId : Int) (adminChatId : String)
      (w : Except String Unit) (arg : String),
      isAdmin chatId adminChatId = false →
      addAssetsHandler regs file orders chatId adminChatId w arg =
        ⟨regs, file, orders, [escapeMarkdownV2 permissionDeniedText], []⟩ ∧
      removeAssetsHandler regs file orders chatId adminChatId w arg =
        ⟨regs, file, orders, [permissionDeniedText], []⟩ := by
  intro regs file orders chatId admin w arg h
  constructor
  · simp [addAssetsHandler, h]
  · simp [removeAssetsHandler, h]

theorem admin_guard_no_mutation_witness :
    isAdmin 5 "1" = false ∧
    addAssetsHandler [Pair.mk "A" "B"] [Pair.mk "A" "B"] [] 5 "1" (.ok ()) "C:D" =
      ⟨[Pair.mk "A" "B"], [Pair.mk "A" "B"], [], [escapeMarkdownV2 permissionDeniedText], []⟩ ∧
    removeAssetsHandler [Pair.mk "A" "B"] [Pair.mk "A" "B"] [] 5 "1" (.ok ()) "A:B" =
      ⟨[Pair.mk "A" "B"], [Pair.mk "A" "B"], [], [permissionDeniedText], []⟩ :=
  ⟨by decide,
   (admin_guard_no_mutation [Pair.mk "A" "B"] [Pair.mk "A" "B"] [] 5 "1" (.ok ()) "C:D" (by decide)).1,
   (admin_guard_no_mutation [Pair.mk "A" "B"] [Pair.mk "A" "B"] [] 5 "1" (.ok ()) "A:B" (by decide)).2⟩

/-- C1: the Instant Conversion protocol invoked on a confirm callback: when
the quote request returns a quote id and accepting it returns an order id,
exactly one order row with that orderId, status `completed`, the requesting
chatId and the original fromAsset, toAsset and amount is appended, the user
is notified and the admin is not; on any failure (no quote id, no order id,
or a thrown exchange error) exactly one order row with the freshly generated
random hex id, status `failed`, the (escaped) error text and the amount (0
when unavailable) is appended, and both the user and the admin are
notified. -/
theorem instantConvert_order_lifecycle :
    (∀ (chatId : Int) (f t : String) (amount : Option ℚ) (tcf : String → String)
       (q oid freshId : String) (now : Int) (db : List Order),
        (instantConvert chatId f t amount tcf (.ok (some q)) (.ok (some oid)) freshId now db).db =
          db ++ [⟨oid, chatId, f, t, amount, "completed", none, now⟩] ∧
        (instantConvert chatId f t amount tcf (.ok (some q)) (.ok (some oid)) freshId now db).userMsgs ≠ [] ∧
        (instantConvert chatId f t amount tcf (.ok (some q)) (.ok (some oid)) freshId now db).adminMsgs = []) ∧
    (∀ (chatId : Int) (f t : String) (amount : Option ℚ) (tcf : String → String)
       (qres ares : Except String (Option String)) (freshId : String) (now : Int) (db : List Order),
        convertSucceeds qres ares = false →
        (instantConvert chatId f t amount tcf qres ares freshId now db).db =
          db ++ [⟨freshId, chatId, jsOrUnknown f, jsOrUnknown t, some (jsOrZero amount),
                  "failed", some (escapeMarkdownV2 (instantErrText tcf qres ares)), now⟩] ∧
        (instantConvert chatId f t amount tcf qres ares freshId now db).userMsgs ≠ [] ∧
        (instantConvert chatId f t amount tcf qres ares freshId now db).adminMsgs =
          ["闪兑失败: " ++ instantErrText tcf qres ares]) := by
  constructor
  · intro chatId f t amount tcf q oid freshId now db
    exact ⟨rfl, by simp [instantConvert], rfl⟩
  · intro chatId f t amount tcf qres ares freshId now db h
    cases qres with
    | error e => exact ⟨rfl, by simp [instantConvert], rfl⟩
    | ok oq =>
        cases oq with
        | none => exact ⟨rfl, by simp [instantConvert], rfl⟩
        | some q =>
            cases ares with
            | error e => exact ⟨rfl, by simp [instantConvert], rfl⟩
            | ok oa =>
                cases oa with
                | none => exact ⟨rfl, by simp [instantConvert], rfl⟩
                | some a => simp [convertSucceeds] at h

theorem instantConvert_order_lifecycle_witness :
    convertSucceeds (Except.error "boom") (Except.ok none) = false ∧
    (instantConvert 7 "ETH" "BTC" (some 1) id (Except.error "boom") (Except.ok none) "ff00" 3 []).db =
      [] ++ [⟨"ff00", 7, jsOrUnknown "ETH", jsOrUnknown "BTC", some (jsOrZero (some 1)),
              "failed", some (escapeMarkdownV2 (instantErrText id (Except.error "boom") (Except.ok none))), 3⟩] ∧
    (instantConvert 7 "ETH" "BTC" (some 1) id (Except.error "boom") (Except.ok none) "ff00" 3 []).userMsgs ≠ [] ∧
    (instantConvert 7 "ETH" "BTC" (some 1) id (Except.error "boom") (Except.ok none) "ff00" 3 []).adminMsgs =
      ["闪兑失败: " ++ instantErrText id (Except.error "boom") (Except.ok none)] :=
  ⟨rfl, instantConvert_order_lifecycle.2 7 "ETH" "BTC" (some 1) id
    (Except.error "boom") (Except.ok none) "ff00" 3 [] rfl⟩

/-- C6: a `/placeorder` whose amount or price parses non-positive is rejected
before the exchange call and inserts no order row; in particular
`/placeorder XRP USD -5 0.5` does not even match the command pattern (the
amount group is `\d+(\.\d+)?`), so its handler never runs, makes no exchange
call, and inserts nothing. -/
theorem placeorder_nonpositive_rejected :
    (∀ (regs : List Pair) (db : List Order) (chatId : Int)
       (res : Except String (Option String)) (freshId : String) (now : Int)
       (text w1 w2 : String) (a p : ℚ),
        matchPlaceOrder text = some (w1, w2, a, p) → a ≤ 0 ∨ p ≤ 0 →
        (placeOrderHandler regs db chatId res freshId now text).exchangeCalled = false ∧
        (placeOrderHandler regs db chatId res freshId now text).db = db) ∧
    matchPlaceOrder "/placeorder XRP USD -5 0.5" = none ∧
    (∀ (regs : List Pair) (db : List Order) (chatId : Int)
       (res : Except String (Option String)) (freshId : String) (now : Int),
        (placeOrderHandler regs db chatId res freshId now "/placeorder XRP USD -5 0.5").exchangeCalled = false ∧
        (placeOrderHandler regs db chatId res freshId now "/placeorder XRP USD -5 0.5").db = db) := by
  have hnone : matchPlaceOrder "/placeorder XRP USD -5 0.5" = none := by decide
  refine ⟨?_, hnone, ?_⟩
  · intro regs db chatId res freshId now text w1 w2 a p hm hle
    simp only [placeOrderHandler, hm]
    rw [if_pos hle]
    exact ⟨rfl, rfl⟩
  · intro regs db chatId res freshId now
    simp only [placeOrderHandler, hnone]
    exact ⟨trivial, trivial⟩

theorem placeorder_nonpositive_rejected_witness :
    matchPlaceOrder "/placeorder A B 0 1" = some ("A", "B", 0, 1) ∧ ((0 : ℚ) ≤ 0 ∨ (1 : ℚ) ≤ 0) ∧
    (placeOrderHandler [] [] 1 (.ok (some "z")) "f0" 0 "/placeorder A B 0 1").exchangeCalled = false ∧
    (placeOrderHandler [] [] 1 (.ok (some "z")) "f0" 0 "/placeorder A B 0 1").db = [] :=
  ⟨by decide, Or.inl (by decide),
   (placeorder_nonpositive_rejected.1 [] [] 1 (.ok (some "z")) "f0" 0
     "/placeorder A B 0 1" "A" "B" 0 1 (by decide) (Or.inl (by decide))).1,
   (placeorder_nonpositive_rejected.1 [] [] 1 (.ok (some "z")) "f0" 0
     "/placeorder A B 0 1" "A" "B" 0 1 (by decide) (Or.inl (by decide))).2⟩

/-- C2: the `/convert` rate limiter is a fixed-window counter per chat id:
the entry resets to count 1 with a new window start when strictly more than
the window length has passed, and increments otherwise; whenever the stepped
count exceeds the maximum (10 per 60000 ms) the command ends in the
rate-limited outcome, reaching neither the pair check nor any prompt; in a
concrete run the 11th `/convert` within one window is rejected while the
10th still succeeds, and the first `/convert` after the window elapses is
accepted again with count 1. -/
theorem convert_rate_limit_fixed_window :
    (∀ (r : RateEntry) (now window : Int),
        (now - r.lastReset > window →
          rateLimitStep (some r) now window = ⟨1, now, r.lang⟩) ∧
        (¬now - r.lastReset > window →
          rateLimitStep (some r) now window = ⟨r.count + 1, r.lastReset, r.lang⟩)) ∧
    (∀ (regs : List Pair) (limits : Int → Option RateEntry) (chatId now : Int) (text : String),
        (matchConvert text).isSome = true →
        (rateLimitStep (limits chatId) now RATE_LIMIT_WINDOW_MS).count > RATE_LIMIT_MAX_REQUESTS →
        (convertHandler regs limits chatId now RATE_LIMIT_WINDOW_MS RATE_LIMIT_MAX_REQUESTS
            text).outcome = .rateLimited) ∧
    (convertSim (List.replicate 10 0)).outcome = .prompt "confirm_convert_A_B_1" ∧
    (convertSim (List.replicate 11 0)).outcome = .rateLimited ∧
    (convertSim (List.replicate 11 0 ++ [60001])).outcome = .prompt "confirm_convert_A_B_1" ∧
    (convertSim (List.replicate 11 0 ++ [60001])).limits 7 = some ⟨1, 60001, "zh"⟩ := by
  refine ⟨?_, ?_, by decide, by decide, by decide, by decide⟩
  · intro r now window
    constructor
    · intro h; simp [rateLimitStep, h]
    · intro h; simp [rateLimitStep, h]
  · intro regs limits chatId now text hm hc
    obtain ⟨⟨w1, w2, amt⟩, he⟩ := Option.isSome_iff_exists.mp hm
    simp only [convertHandler, he]
    simp [hc]

theorem convert_rate_limit_fixed_window_witness :
    ((61000 : Int) - 0 > 60000 ∧
      rateLimitStep (some ⟨5, 0, "zh"⟩) 61000 60000 = ⟨1, 61000, "zh"⟩) ∧
    ((matchConvert "/convert A B 1").isSome = true ∧
      (rateLimitStep ((fun _ => some ⟨10, 0, "zh"⟩) (7 : Int)) 0 RATE_LIMIT_WINDOW_MS).count >
        RATE_LIMIT_MAX_REQUESTS ∧
      (convertHandler [] (fun _ => some ⟨10, 0, "zh"⟩) 7 0 RATE_LIMIT_WINDOW_MS
        RATE_LIMIT_MAX_REQUESTS "/convert A B 1").outcome = .rateLimited) :=
  ⟨⟨by decide, (convert_rate_limit_fixed_window.1 ⟨5, 0, "zh"⟩ 61000 60000).1 (by decide)⟩,
   ⟨by decide, by decide,
    convert_rate_limit_fixed_window.2.1 [] (fun _ => some ⟨10, 0, "zh"⟩) 7 0
      "/convert A B 1" (by decide) (by decide)⟩⟩

/-- C10: the `/convert` command performs no positivity check on the amount:
the amount token `0` is accepted by the command pattern, and for any registry
supporting the pair and a fresh rate-limit entry the handler reaches the
confirmation prompt with callback data `confirm_convert_A_B_0`, so confirming
would issue a real quote request for amount 0. -/
theorem convert_zero_amount_prompt :
    ∀ (regs : List Pair) (limits : Int → Option RateEntry) (chatId now : Int),
      isSupported regs "A" "B" = true → limits chatId = none →
      (convertHandler regs limits chatId now RATE_LIMIT_WINDOW_MS RATE_LIMIT_MAX_REQUESTS
          "/convert A B 0").outcome = .prompt "confirm_convert_A_B_0" := by
  intro regs limits chatId now h1 h2
  have hm : matchConvert "/convert A B 0" = some ("A", "B", 0) := by decide
  have hA : jsToUpper "A" = "A" := by decide
  have hB : jsToUpper "B" = "B" := by decide
  have hcb : "confirm_convert_A_B_" ++ jsNumToString 0 = "confirm_convert_A_B_0" := by decide
  simp only [convertHandler, hm, h2, hA, hB, rateLimitStep]
  simp [h1, RATE_LIMIT_MAX_REQUESTS, hcb]

theorem convert_zero_amount_prompt_witness :
    isSupported [Pair.mk "A" "B"] "A" "B" = true ∧
    ((fun _ => none : Int → Option RateEntry) 0 = none) ∧
    (convertHandler [Pair.mk "A" "B"] (fun _ => none) 0 0 RATE_LIMIT_WINDOW_MS
        RATE_LIMIT_MAX_REQUESTS "/convert A B 0").outcome = .prompt "confirm_convert_A_B_0" :=
  ⟨by decide, rfl,
   convert_zero_amount_prompt [Pair.mk "A" "B"] (fun _ => none) 0 0 (by decide) rfl⟩

/-- C3 counterexample: the claim that the escaping pass is applied exactly
once to each piece of dynamic text fails in the `/status` handler: for a
failed order whose stored error is `x.y`, the sent message (which escapes the
already-escaped error again together with the rest of the message) differs
from the single-pass escape of the composed message. -/
theorem status_escape_once_cex :
    statusSentMsg ⟨"o1", 7, "A", "B", some 1, "failed", some "x.y", 0⟩ ≠
    statusSentMsgSpecOnce ⟨"o1", 7, "A", "B", some 1, "failed", some "x.y", 0⟩ := by decide

/-- C3 (amended): in the `/status` reply for a failed order the stored error
text is escaped twice before sending — once when it is spliced into the
composed message and once more when the whole message is escaped — while the
static frame around it is escaped once; so reserved characters inside the
stored error do not end up preceded by exactly one backslash. -/
theorem status_error_double_escaped :
    ∀ o : Order, o.status = "failed" →
      statusSentMsg o =
        escapeMarkdownV2 (statusBaseMsg o) ++
          (escapeMarkdownV2 "\n*错误:* " ++
            escapeMarkdownV2 (escapeMarkdownV2 (o.error.getD ""))) := by
  intro o h
  simp only [statusSentMsg, statusComposedMsg, h]
  simp only [beq_self_eq_true, if_pos]
  rw [escape_append, escape_append]

theorem status_error_double_escaped_witness :
    (Order.mk "o1" 7 "A" "B" (some 1) "failed" (some "x.y") 0).status = "failed" ∧
    statusSentMsg (Order.mk "o1" 7 "A" "B" (some 1) "failed" (some "x.y") 0) =
      escapeMarkdownV2 (statusBaseMsg (Order.mk "o1" 7 "A" "B" (some 1) "failed" (some "x.y") 0)) ++
        (escapeMarkdownV2 "\n*错误:* " ++ escapeMarkdownV2 (escapeMarkdownV2 "x.y")) :=
  ⟨rfl, status_error_double_escaped (Order.mk "o1" 7 "A" "B" (some 1) "failed" (some "x.y") 0) rfl⟩

/-- C5 counterexample: the registry invariant does not survive a batch that
repeats a pair within one `/addassets` command: starting from the empty
registry, the admin command `/addassets A:B,A:B` leaves the registry with two
copies of the pair, because each token is only checked against the registry
as it was before the command. -/
theorem addassets_batch_dup_cex :
    noDupPairs ((addAssetsHandler [] [] [] 1 "1" (.ok ()) "A:B,A:B").registry) = false := by decide

/-- C5 (amended): `/addassets` rejects pairs already present in the registry
(case-insensitively, in either direction) but appends repeats occurring
within one command verbatim; consequently the no-duplicate invariant is
preserved exactly when the genuinely new pairs of the command are pairwise
distinct among themselves (in either direction). -/
theorem addassets_noDup_preserved :
    ∀ (regs file : List Pair) (orders : List Order) (chatId : Int) (adminChatId : String)
      (w : Except String Unit) (arg : String),
      noDupPairs regs = true →
      noDupPairs (addAssetsNewPairs regs (tokenizePairs (jsTrim arg))) = true →
      noDupPairs ((addAssetsHandler regs file orders chatId adminChatId w arg).registry) = true := by
  intro regs file orders chatId admin w arg h1 h2
  have hcross : ∀ q ∈ regs, ∀ p ∈ addAssetsNewPairs regs (tokenizePairs (jsTrim arg)),
      samePairB q p = false := by
    intro q hq p hp
    have hf := (List.mem_filter.mp hp).2
    simp only [Bool.not_eq_true'] at hf
    have := (List.any_eq_false.mp hf) q hq
    simpa [samePairB] using this
  unfold addAssetsHandler
  cases hA : isAdmin chatId admin with
  | false => simpa using h1
  | true =>
      simp only [hA, Bool.not_true, Bool.false_eq_true, if_false]
      cases hT : (tokenizePairs (jsTrim arg)).isEmpty with
      | true => simpa [hT] using h1
      | false =>
          simp only [hT, Bool.false_eq_true, if_false]
          cases w with
          | ok u => exact noDupPairs_append regs _ h1 h2 hcross
          | error e => exact noDupPairs_append regs _ h1 h2 hcross

theorem addassets_noDup_preserved_witness :
    noDupPairs [Pair.mk "X" "Y"] = true ∧
    noDupPairs (addAssetsNewPairs [Pair.mk "X" "Y"] (tokenizePairs (jsTrim "A:B,C:D"))) = true ∧
    noDupPairs ((addAssetsHandler [Pair.mk "X" "Y"] [Pair.mk "X" "Y"] [] 1 "1" (.ok ())
        "A:B,C:D").registry) = true :=
  ⟨by decide, by decide,
   addassets_noDup_preserved [Pair.mk "X" "Y"] [Pair.mk "X" "Y"] [] 1 "1" (.ok ())
     "A:B,C:D" (by decide) (by decide)⟩

/-- C4: the dispatcher does not map one inbound message to exactly one
outbound reply: the `/tradehistory` listener is registered twice (bot.js
lines 300 and 511), so a single `/tradehistory` message produces two history
replies; the `/assetinfo` listener is registered twice (lines 458 and 743);
and both catch-all `message` listeners (lines 88 and 796) reply to a single
unmatched free-text message, each with an unknown-command reply. -/
theorem duplicate_handler_replies :
    respondersFor "/tradehistory" = [.tradeHistory, .tradeHistory] ∧
    respondersFor "/assetinfo BTC" = [.assetInfo, .assetInfo] ∧
    respondersFor "你好" = [.menuMsg, .unknownMsg] := by decide

end BianBot
